import Mathlib

/-
Verification of the request-ingestion front end of the simple_http server
(src/http.rs and src/http/reader.rs), as a shallow embedding over lists of
bytes.  Rust strings are modelled as their UTF-8 byte sequences (List Nat),
stateful reads as explicit state passing, and fallible operations as result
types.  The byte source behind a RequestReader is modelled as the list of
responses the raw reader returns to successive read calls into the 2048-byte
staging buffer; an exhausted source keeps answering with zero bytes, exactly
like a slice reader.
-/

namespace SimpleHttp

/-- Model of std::io errors as far as this code distinguishes them: the
UnexpectedEof kind produced at reader.rs line 78, versus any other error kind
coming out of the underlying source (coded by a number). -/
inductive IOErr : Type
  | unexpectedEof : IOErr
  | other : Nat → IOErr
deriving DecidableEq, Repr

/-- One answer of the underlying byte source to a raw read call: either a run
of bytes (zero bytes = exhaustion) or an I/O error. -/
inductive RawResp : Type
  | bytes : List Nat → RawResp
  | ioError : IOErr → RawResp
deriving DecidableEq, Repr

/-- State of a RequestReader (reader.rs lines 40-43): the remaining responses
of the underlying source and the internal pushback VecDeque, front at the
head of the list. -/
structure ReaderState : Type where
  source : List RawResp
  internal : List Nat
deriving DecidableEq, Repr

/-- Result of an operation that can fail with an error, mirroring Result. -/
inductive Res (ε : Type) (α : Type) : Type
  | ok : α → Res ε α
  | err : ε → Res ε α
deriving DecidableEq, Repr

/-- Outcome of a reader/parsing operation.  ok and err mirror Result;
panic models a process abort through expect/unwrap; fuelOut is an artifact
of the fuel-indexed embedding of the read_until loop and never occurs when
enough fuel is supplied. -/
inductive Outcome (ε : Type) (α : Type) : Type
  | ok : α → Outcome ε α
  | err : ε → Outcome ε α
  | panic : Outcome ε α
  | fuelOut : Outcome ε α
deriving DecidableEq, Repr

/-- One raw read from the underlying source: pop the next response; an
exhausted source answers with zero bytes forever, like a slice reader. -/
def rawRead : List RawResp → RawResp × List RawResp
  | [] => (RawResp.bytes [], [])
  | r :: rest => (r, rest)

/-- Model of RequestReader::internal_read (reader.rs lines 101-134) called on
a fresh zeroed buffer of length N, as read_until does: pop up to N bytes from
the pushback queue; if room remains, do one raw read into the 2048-byte
staging buffer, copy what fits, and push the surplus onto the pushback queue.
Returns the full N-byte buffer (written bytes then the untouched zero fill),
the count of bytes actually filled, and the next reader state.  Responses of
the source are assumed to fit the 2048-byte staging buffer, which holds for
every source considered here. -/
def internalRead (N : Nat) (st : ReaderState) : Res IOErr (List Nat × Nat × ReaderState) :=
  let n := min N st.internal.length
  let front := st.internal.take n
  let internal1 := st.internal.drop n
  if n < N then
    match rawRead st.source with
    | (RawResp.ioError e, _) => Res.err e
    | (RawResp.bytes tmp, source1) =>
      let endIdx := min tmp.length (N - n)
      Res.ok (front ++ tmp.take endIdx ++ List.replicate (N - (n + endIdx)) 0,
              n + endIdx,
              ⟨source1, internal1 ++ tmp.drop endIdx⟩)
  else
    Res.ok (front ++ List.replicate (N - n) 0, n, ⟨st.source, internal1⟩)

/-- Position of the first window of l equal to p, exactly as
buf[..n].windows(pattern.len()).position(|w| w == pattern) computes it
(reader.rs lines 80-83). -/
def firstMatchPos (p : List Nat) : List Nat → Option Nat
  | [] => if ([] : List Nat).take p.length = p then some 0 else none
  | a :: l =>
    if (a :: l).take p.length = p then some 0
    else (firstMatchPos p l).map (· + 1)

/-- Model of the loop of RequestReader::read_until_with_chunk_size
(reader.rs lines 75-98), fuel-indexed: read into a fresh zeroed N-byte
buffer; zero bytes read means UnexpectedEof; a pattern match inside the
freshly read bytes returns the accumulated output up to and including the
pattern and pushes the buffer tail past the match onto the pushback queue
when the match ends before the read count; otherwise the whole N-byte buffer
is appended to the output and the loop continues. -/
def readUntilAux (N : Nat) (p : List Nat) : Nat → List Nat → ReaderState →
    Outcome IOErr (List Nat × ReaderState)
  | 0, _, _ => Outcome.fuelOut
  | fuel + 1, out, st =>
    match internalRead N st with
    | Res.err e => Outcome.err e
    | Res.ok (buf, n, st1) =>
      if n = 0 then Outcome.err IOErr.unexpectedEof
      else
        match firstMatchPos p (buf.take n) with
        | some idx =>
          if idx + p.length < n then
            Outcome.ok (out ++ buf.take (idx + p.length),
                        ⟨st1.source, st1.internal ++ buf.drop (idx + p.length)⟩)
          else
            Outcome.ok (out ++ buf.take (idx + p.length), st1)
        | none => readUntilAux N p fuel (out ++ buf) st1

/-- RequestReader::read_until_with_chunk_size from an empty accumulator. -/
def readUntil (N : Nat) (p : List Nat) (fuel : Nat) (st : ReaderState) :
    Outcome IOErr (List Nat × ReaderState) :=
  readUntilAux N p fuel [] st

/-- Whether b lies in the inclusive byte range [lo, hi]. -/
def inRange (b lo hi : Nat) : Bool := lo ≤ b && b ≤ hi

/-- UTF-8 validity of a byte list (RFC 3629 table, the check performed by
String::from_utf8), structured on a fuel that bounds the number of decoded
scalars.  Each step consumes at least one byte, so with fuel equal to the
list length the fuel never runs out before the list does; out-of-range or
truncated continuation bytes are looked up with default 0, which fails every
continuation range. -/
def validUtf8Fuel : Nat → List Nat → Bool
  | 0, l => l.isEmpty
  | fuel + 1, l =>
    match l with
    | [] => true
    | b :: rest =>
      if b < 128 then validUtf8Fuel fuel rest
      else if inRange b 194 223 then
        inRange (rest.getD 0 0) 128 191 && validUtf8Fuel fuel (rest.drop 1)
      else if b = 224 then
        inRange (rest.getD 0 0) 160 191 && inRange (rest.getD 1 0) 128 191 &&
          validUtf8Fuel fuel (rest.drop 2)
      else if inRange b 225 236 then
        inRange (rest.getD 0 0) 128 191 && inRange (rest.getD 1 0) 128 191 &&
          validUtf8Fuel fuel (rest.drop 2)
      else if b = 237 then
        inRange (rest.getD 0 0) 128 159 && inRange (rest.getD 1 0) 128 191 &&
          validUtf8Fuel fuel (rest.drop 2)
      else if inRange b 238 239 then
        inRange (rest.getD 0 0) 128 191 && inRange (rest.getD 1 0) 128 191 &&
          validUtf8Fuel fuel (rest.drop 2)
      else if b = 240 then
        inRange (rest.getD 0 0) 144 191 && inRange (rest.getD 1 0) 128 191 &&
          inRange (rest.getD 2 0) 128 191 && validUtf8Fuel fuel (rest.drop 3)
      else if inRange b 241 243 then
        inRange (rest.getD 0 0) 128 191 && inRange (rest.getD 1 0) 128 191 &&
          inRange (rest.getD 2 0) 128 191 && validUtf8Fuel fuel (rest.drop 3)
      else if b = 244 then
        inRange (rest.getD 0 0) 128 143 && inRange (rest.getD 1 0) 128 191 &&
          inRange (rest.getD 2 0) 128 191 && validUtf8Fuel fuel (rest.drop 3)
      else false

/-- UTF-8 validity of a byte list, the condition under which
String::from_utf8 succeeds. -/
def validUtf8 (l : List Nat) : Bool := validUtf8Fuel l.length l

/-- Whether suf is a suffix of l, as str::strip_suffix tests it. -/
def endsWith (suf l : List Nat) : Bool :=
  decide (suf.length ≤ l.length) && decide (l.drop (l.length - suf.length) = suf)

/-- Splitting on a non-empty separator sequence, fuel-indexed; each step
consumes at least one byte so fuel = length of the list suffices. -/
def splitOnSeqAux (sep : List Nat) : Nat → List Nat → List (List Nat)
  | 0, l => [l]
  | fuel + 1, l =>
    match firstMatchPos sep l with
    | none => [l]
    | some i => l.take i :: splitOnSeqAux sep fuel (l.drop (i + sep.length))

/-- Model of str::split with a literal non-empty pattern (leftmost,
non-overlapping; an empty input yields one empty field, as in Rust). -/
def splitOnSeq (sep l : List Nat) : List (List Nat) :=
  splitOnSeqAux sep l.length l

/-- The error type of the RequestReader layer (reader.rs lines 9-13); the
FromUtf8Error payload of the Encoding variant carries no information this
development inspects and is dropped. -/
inductive RequestReaderError : Type
  | Io : IOErr → RequestReaderError
  | Encoding : RequestReaderError
deriving DecidableEq, Repr

/-- Model of RequestReader::read_start_line (reader.rs lines 53-58):
read_until "\r\n" with chunk size 16, decode as UTF-8, then
strip_suffix("\r\n").unwrap() — the unwrap aborts if the delimiter were
absent (it never is on the ok path). -/
def readStartLine (fuel : Nat) (st : ReaderState) :
    Outcome RequestReaderError (List Nat × ReaderState) :=
  match readUntil 16 [13, 10] fuel st with
  | Outcome.fuelOut => Outcome.fuelOut
  | Outcome.panic => Outcome.panic
  | Outcome.err e => Outcome.err (RequestReaderError.Io e)
  | Outcome.ok (bytes, st1) =>
    if validUtf8 bytes then
      if endsWith [13, 10] bytes then
        Outcome.ok (bytes.take (bytes.length - 2), st1)
      else Outcome.panic
    else Outcome.err RequestReaderError.Encoding

/-- Model of RequestReader::read_headers (reader.rs lines 60-65):
read_until "\r\n\r\n" with chunk size 64, decode as UTF-8, strip the
trailing "\r\n\r\n" (unwrap aborts if absent), then split on "\r\n". -/
def readHeaders (fuel : Nat) (st : ReaderState) :
    Outcome RequestReaderError (List (List Nat) × ReaderState) :=
  match readUntil 64 [13, 10, 13, 10] fuel st with
  | Outcome.fuelOut => Outcome.fuelOut
  | Outcome.panic => Outcome.panic
  | Outcome.err e => Outcome.err (RequestReaderError.Io e)
  | Outcome.ok (bytes, st1) =>
    if validUtf8 bytes then
      if endsWith [13, 10, 13, 10] bytes then
        Outcome.ok (splitOnSeq [13, 10] (bytes.take (bytes.length - 4)), st1)
      else Outcome.panic
    else Outcome.err RequestReaderError.Encoding

/-- The HTTP method enumeration (http.rs lines 41-51). -/
inductive Method : Type
  | Get | Head | Post | Put | Delete | Connect | Options | Trace
deriving DecidableEq, Repr

/-- Decoder of TryFrom for Method (http.rs lines 53-69): the
8 exact uppercase tokens, anything else rejected (Format at the caller). -/
def methodFromBytes (s : List Nat) : Option Method :=
  if s = [71, 69, 84] then some Method.Get
  else if s = [72, 69, 65, 68] then some Method.Head
  else if s = [80, 79, 83, 84] then some Method.Post
  else if s = [80, 85, 84] then some Method.Put
  else if s = [68, 69, 76, 69, 84, 69] then some Method.Delete
  else if s = [67, 79, 78, 78, 69, 67, 84] then some Method.Connect
  else if s = [79, 80, 84, 73, 79, 78, 83] then some Method.Options
  else if s = [84, 82, 65, 67, 69] then some Method.Trace
  else none

/-- Modelled from the spec: the repository source defines no encoder
(Display impl) for Method — only the decoder exists in src/http.rs.  The
spec (section 4.3) fixes the canonical table as the same 8 uppercase tokens
the decoder matches. -/
def methodToBytes : Method → List Nat
  | Method.Get => [71, 69, 84]
  | Method.Head => [72, 69, 65, 68]
  | Method.Post => [80, 79, 83, 84]
  | Method.Put => [80, 85, 84]
  | Method.Delete => [68, 69, 76, 69, 84, 69]
  | Method.Connect => [67, 79, 78, 78, 69, 67, 84]
  | Method.Options => [79, 80, 84, 73, 79, 78, 83]
  | Method.Trace => [84, 82, 65, 67, 69]

/-- The HTTP version enumeration (http.rs lines 71-78). -/
inductive Version : Type
  | V0_9 | V1 | V1_1 | V2 | V3
deriving DecidableEq, Repr

/-- Version::is_supported (http.rs lines 80-84). -/
def Version.isSupported : Version → Bool
  | Version.V1 => true
  | Version.V1_1 => true
  | _ => false

/-- Decoder of TryFrom for Version (http.rs lines 86-99): the 5 exact
canonical strings, anything else rejected (Format at the caller). -/
def versionFromBytes (s : List Nat) : Option Version :=
  if s = [72, 84, 84, 80, 47, 48, 46, 57] then some Version.V0_9
  else if s = [72, 84, 84, 80, 47, 49] then some Version.V1
  else if s = [72, 84, 84, 80, 47, 49, 46, 49] then some Version.V1_1
  else if s = [72, 84, 84, 80, 47, 50] then some Version.V2
  else if s = [72, 84, 84, 80, 47, 51] then some Version.V3
  else none

/-- Encoder of Display for Version (http.rs lines 101-111). -/
def versionToBytes : Version → List Nat
  | Version.V0_9 => [72, 84, 84, 80, 47, 48, 46, 57]
  | Version.V1 => [72, 84, 84, 80, 47, 49]
  | Version.V1_1 => [72, 84, 84, 80, 47, 49, 46, 49]
  | Version.V2 => [72, 84, 84, 80, 47, 50]
  | Version.V3 => [72, 84, 84, 80, 47, 51]

/-- The request parsing error type (http.rs lines 13-18). -/
inductive RequestParsingError : Type
  | Io : IOErr → RequestParsingError
  | Format : RequestParsingError
  | UnsupportedVersion : Version → RequestParsingError
deriving DecidableEq, Repr

/-- The From impl converting reader errors (http.rs lines 30-37):
Io passes through, any Encoding failure folds into Format. -/
def ofReaderError : RequestReaderError → RequestParsingError
  | RequestReaderError.Io e => RequestParsingError.Io e
  | RequestReaderError.Encoding => RequestParsingError.Format

/-- Tokenization and validation of the decoded start line
(http.rs lines 128-149): split on single spaces; first token must decode as
a method, second is the target, third must decode as a version; an
unsupported version is rejected before the check that no tokens remain. -/
def parseStartLine (line : List Nat) :
    Res RequestParsingError (Method × List Nat × Version) :=
  match splitOnSeq [32] line with
  | [] => Res.err RequestParsingError.Format
  | mTok :: rest =>
    match methodFromBytes mTok with
    | none => Res.err RequestParsingError.Format
    | some m =>
      match rest with
      | [] => Res.err RequestParsingError.Format
      | target :: rest2 =>
        match rest2 with
        | [] => Res.err RequestParsingError.Format
        | vTok :: rest3 =>
          match versionFromBytes vTok with
          | none => Res.err RequestParsingError.Format
          | some v =>
            if v.isSupported = false then
              Res.err (RequestParsingError.UnsupportedVersion v)
            else if rest3.length ≠ 0 then Res.err RequestParsingError.Format
            else Res.ok (m, target, v)

/-- The parsed request value (http.rs lines 113-120). -/
structure Request : Type where
  method : Method
  target : List Nat
  version : Version
  headers : List (List Nat)
  body : Option (List Nat)
deriving DecidableEq, Repr

/-- Model of Request::try_from_reader (http.rs lines 123-161).  The start
line is read through expect, which aborts the process (panic) on ANY reader
error instead of returning it; start-line tokenization errors and header
read errors are returned as typed values, and the body is left absent. -/
def tryFromReader (fuel : Nat) (st : ReaderState) :
    Outcome RequestParsingError Request :=
  match readStartLine fuel st with
  | Outcome.fuelOut => Outcome.fuelOut
  | Outcome.panic => Outcome.panic
  | Outcome.err _ => Outcome.panic
  | Outcome.ok (line, st1) =>
    match parseStartLine line with
    | Res.err e => Outcome.err e
    | Res.ok (m, t, v) =>
      match readHeaders fuel st1 with
      | Outcome.fuelOut => Outcome.fuelOut
      | Outcome.panic => Outcome.panic
      | Outcome.err e => Outcome.err (ofReaderError e)
      | Outcome.ok (hs, _) => Outcome.ok ⟨m, t, v, hs, none⟩

/-- Reader state over a byte slice of at most 2048 bytes: first raw read
returns everything, later reads return zero bytes. -/
def sliceReader (data : List Nat) : ReaderState :=
  ⟨[RawResp.bytes data], []⟩

/-- A byte source that was closed before delivering anything. -/
def emptySource : ReaderState := ⟨[], []⟩

/-- Bytes of "GET / HTTP/1.1\r\nHost: x\r\nUser-Agent: y\r\n\r\n". -/
def c2Input : List Nat :=
  [71, 69, 84, 32, 47, 32, 72, 84, 84, 80, 47, 49, 46, 49, 13, 10,
   72, 111, 115, 116, 58, 32, 120, 13, 10,
   85, 115, 101, 114, 45, 65, 103, 101, 110, 116, 58, 32, 121, 13, 10, 13, 10]

/-- Bytes of the header line "Host: x". -/
def hostHdr : List Nat := [72, 111, 115, 116, 58, 32, 120]

/-- Bytes of the header line "User-Agent: y". -/
def uaHdr : List Nat := [85, 115, 101, 114, 45, 65, 103, 101, 110, 116, 58, 32, 121]

/-- Bytes of "ABCDEF012345\r\nXX". -/
def c3Input : List Nat :=
  [65, 66, 67, 68, 69, 70, 48, 49, 50, 51, 52, 53, 13, 10, 88, 88]

/-- Bytes of "ABCDEF012345\r\n". -/
def c3Line : List Nat := [65, 66, 67, 68, 69, 70, 48, 49, 50, 51, 52, 53, 13, 10]

/-- Bytes of fifteen letters A followed by "\r\n": the delimiter straddles
the boundary of the first 16-byte chunk. -/
def c8Input : List Nat := List.replicate 15 65 ++ [13, 10]

/-- Bytes of "GET / HTTP/1.1\r\n\r\n": a request with zero header lines. -/
def c9Input : List Nat :=
  [71, 69, 84, 32, 47, 32, 72, 84, 84, 80, 47, 49, 46, 49, 13, 10, 13, 10]

/-- Bytes of "GET / HTTP/1.1". -/
def c9StartLine : List Nat :=
  [71, 69, 84, 32, 47, 32, 72, 84, 84, 80, 47, 49, 46, 49]

/-- Bytes of the start line "QQQ / HTTP/2": invalid method token, valid but
unsupported version token. -/
def qqqLine : List Nat := [81, 81, 81, 32, 47, 32, 72, 84, 84, 80, 47, 50]

/-- Bytes of the start line "GET / HTTP/2". -/
def getH2Line : List Nat := [71, 69, 84, 32, 47, 32, 72, 84, 84, 80, 47, 50]

/-- Bytes of the start line "GET / HTTP/2 x": four tokens with a valid but
unsupported version. -/
def getH2ExtraLine : List Nat :=
  [71, 69, 84, 32, 47, 32, 72, 84, 84, 80, 47, 50, 32, 120]

/-- Bytes of the start line "GET / HTTP/1.1 x": four tokens with a supported
version. -/
def getH11ExtraLine : List Nat :=
  [71, 69, 84, 32, 47, 32, 72, 84, 84, 80, 47, 49, 46, 49, 32, 120]

/-- Bytes of "Host: x\r\n", one short read of a header block. -/
def hostLineBytes : List Nat := [72, 111, 115, 116, 58, 32, 120, 13, 10]

/-- A source that delivers the header block in two short reads: nine bytes
"Host: x\r\n", then the four closing bytes "\r\n\r\n". -/
def shortReadState : ReaderState :=
  ⟨[RawResp.bytes hostLineBytes, RawResp.bytes [13, 10, 13, 10]], []⟩

/-- The 64-byte buffer produced by the first short read above: the nine
delivered bytes followed by 55 zero bytes never read from the source. -/
def hostChunk : List Nat := hostLineBytes ++ List.replicate 55 0

/-- Every successful internal_read on a fresh zeroed N-byte buffer returns a
buffer of length exactly N whose bytes past the fill count are the untouched
zero fill. -/
theorem internalRead_shape {N : Nat} {st st1 : ReaderState} {buf : List Nat} {n : Nat}
    (h : internalRead N st = Res.ok (buf, n, st1)) :
    buf.length = N ∧ n ≤ N ∧ buf.drop n = List.replicate (N - n) 0 := by
  have hn0N : min N st.internal.length ≤ N := Nat.min_le_left _ _
  have hn0i : min N st.internal.length ≤ st.internal.length := Nat.min_le_right _ _
  have hfl : (st.internal.take (min N st.internal.length)).length
      = min N st.internal.length := by
    rw [List.length_take]
    exact Nat.min_eq_left hn0i
  simp only [internalRead] at h
  split at h
  · split at h
    · exact absurd h (by simp)
    · rename_i hlt tmp source1 heq
      simp only [Res.ok.injEq, Prod.mk.injEq] at h
      obtain ⟨hbuf, hn, -⟩ := h
      subst hbuf
      subst hn
      have hel : min tmp.length (N - min N st.internal.length) ≤ tmp.length :=
        Nat.min_le_left _ _
      have heN : min tmp.length (N - min N st.internal.length)
          ≤ N - min N st.internal.length := Nat.min_le_right _ _
      have het : (tmp.take (min tmp.length (N - min N st.internal.length))).length
          = min tmp.length (N - min N st.internal.length) := by
        rw [List.length_take]
        exact Nat.min_eq_left hel
      refine ⟨?_, ?_, ?_⟩
      · simp only [List.length_append, List.length_replicate, hfl, het]
        omega
      · omega
      · have hlen : min N st.internal.length
              + min tmp.length (N - min N st.internal.length)
            = (st.internal.take (min N st.internal.length)
              ++ tmp.take (min tmp.length (N - min N st.internal.length))).length := by
          simp only [List.length_append, hfl, het]
        rw [hlen, List.drop_left]
  · rename_i hge
    have hNe : min N st.internal.length = N := by omega
    simp only [Res.ok.injEq, Prod.mk.injEq] at h
    obtain ⟨hbuf, hn, -⟩ := h
    subst hbuf
    subst hn
    refine ⟨?_, ?_, ?_⟩
    · simp only [List.length_append, List.length_replicate, hfl]
      omega
    · omega
    · rw [hNe] at hfl ⊢
      simp only [Nat.sub_self, List.replicate_zero, List.append_nil]
      exact List.drop_eq_nil_of_le (le_of_eq hfl)

/-- Soundness of the window scan: a reported position carries an actual
occurrence of the pattern lying inside the list. -/
theorem firstMatchPos_sound {p : List Nat} :
    ∀ {l : List Nat} {i : Nat}, firstMatchPos p l = some i →
      i + p.length ≤ l.length ∧ (l.drop i).take p.length = p := by
  intro l
  induction l with
  | nil =>
    intro i h
    simp only [firstMatchPos] at h
    split at h
    · rename_i hp
      simp only [List.take_nil] at hp
      simp only [Option.some.injEq] at h
      subst h
      subst hp
      simp
    · exact absurd h (by simp)
  | cons a l ih =>
    intro i h
    simp only [firstMatchPos] at h
    split at h
    · rename_i hp
      simp only [Option.some.injEq] at h
      subst h
      have hlen : p.length ≤ l.length + 1 := by
        have := congrArg List.length hp
        simp only [List.length_take, List.length_cons] at this
        omega
      exact ⟨by simp only [List.length_cons]; omega, by simpa using hp⟩
    · obtain ⟨j, hj, hij⟩ := Option.map_eq_some'.mp h
      obtain ⟨h1, h2⟩ := ih hj
      subst hij
      exact ⟨by simp only [List.length_cons]; omega,
        by simpa [List.drop_succ_cons] using h2⟩

/-- C1: the claim says try_from_reader returns a typed RequestParsingError
whenever reading or decoding the start line fails and never panics.  The
code does the opposite: read_start_line on a closed (empty) source fails
with the typed Io(UnexpectedEof) error, and try_from_reader routes that
error through expect, aborting the process. -/
theorem c1_start_line_failure_aborts :
    readStartLine 4 emptySource =
      Outcome.err (RequestReaderError.Io IOErr.unexpectedEof) ∧
    tryFromReader 4 emptySource = Outcome.panic := by decide

/-- C2: the byte stream "GET / HTTP/1.1\r\nHost: x\r\nUser-Agent: y\r\n\r\n"
parses to a Request with method Get, target "/", version V1_1, the two
header lines in wire order, and an absent body. -/
theorem c2_request_parses_correctly :
    tryFromReader 6 (sliceReader c2Input) =
      Outcome.ok ⟨Method.Get, [47], Version.V1_1, [hostHdr, uaHdr], none⟩ := by
  decide

/-- C8: the window scan is scoped to one chunk.  In the input of fifteen A
bytes followed by "\r\n" the delimiter occurs at position 15, straddling the
16-byte chunk boundary; it is found in neither the first chunk nor the
remainder, and the scan returns an end-of-stream error instead of the
prefix ending at that delimiter. -/
theorem c8_cross_chunk_blindness :
    firstMatchPos [13, 10] c8Input = some 15 ∧
    firstMatchPos [13, 10] (c8Input.take 16) = none ∧
    firstMatchPos [13, 10] (c8Input.drop 16) = none ∧
    readUntil 16 [13, 10] 6 (sliceReader c8Input) =
      Outcome.err IOErr.unexpectedEof := by decide

/-- C9 counterexample: the claim says a request with zero header lines
(start line followed by a single bare CRLF) parses successfully with an
empty header sequence; on that exact input the code instead returns the
Io(UnexpectedEof) error, because after the start line only "\r\n" remains
and the header scan looks for "\r\n\r\n". -/
theorem c9_zero_headers_rejected :
    tryFromReader 6 (sliceReader c9Input) =
      Outcome.err (RequestParsingError.Io IOErr.unexpectedEof) := by decide

/-- C9 amended: a request whose header block contains zero header lines
does not parse; the start line is consumed, the header scan for "\r\n\r\n"
exhausts the source without ever matching inside the lone remaining CRLF,
and parsing fails with the Io(UnexpectedEof) error. -/
theorem c9_zero_headers_eof :
    readStartLine 6 (sliceReader c9Input) =
      Outcome.ok (c9StartLine, (⟨[], [13, 10]⟩ : ReaderState)) ∧
    readUntil 64 [13, 10, 13, 10] 6 (⟨[], [13, 10]⟩ : ReaderState) =
      Outcome.err IOErr.unexpectedEof ∧
    tryFromReader 6 (sliceReader c9Input) =
      Outcome.err (RequestParsingError.Io IOErr.unexpectedEof) := by decide

/-- C4 counterexample: the claim quantifies over every start line whose
version token decodes to a valid unsupported version.  On "QQQ / HTTP/2"
the version token is "HTTP/2" (decoding to the unsupported V2), yet parsing
fails with Format — the invalid method is rejected first — not with
UnsupportedVersion(V2). -/
theorem c4_invalid_method_precedes_version :
    splitOnSeq [32] qqqLine =
      [[81, 81, 81], [47], [72, 84, 84, 80, 47, 50]] ∧
    versionFromBytes [72, 84, 84, 80, 47, 50] = some Version.V2 ∧
    Version.isSupported Version.V2 = false ∧
    parseStartLine qqqLine = Res.err RequestParsingError.Format ∧
    (Res.err RequestParsingError.Format :
        Res RequestParsingError (Method × List Nat × Version)) ≠
      Res.err (RequestParsingError.UnsupportedVersion Version.V2) := by decide

/-- C5 counterexample: the claim says every start line splitting into more
than three tokens fails with Format regardless of the first three tokens.
"GET / HTTP/2 x" splits into four tokens yet fails with
UnsupportedVersion(V2), because the version support check precedes the
leftover-token count check. -/
theorem c5_unsupported_version_precedes_count :
    (splitOnSeq [32] getH2ExtraLine).length = 4 ∧
    parseStartLine getH2ExtraLine =
      Res.err (RequestParsingError.UnsupportedVersion Version.V2) ∧
    (Res.err (RequestParsingError.UnsupportedVersion Version.V2) :
        Res RequestParsingError (Method × List Nat × Version)) ≠
      Res.err RequestParsingError.Format := by decide

/-- C3: for every reader state and non-empty pattern, when the read of a
scan iteration delivers n bytes containing the pattern (first window match
at idx), read_until returns all bytes accumulated so far up to and
including the pattern, and, when the match ends before the read count, the
buffer tail past the match is appended to the pushback queue so the next
read starts immediately past the delimiter; the returned run does contain
the pattern at offset idx. -/
theorem c3_read_until_match_returns_and_pushes_back
    (N : Nat) (p : List Nat) (fuel : Nat) (out : List Nat) (st st1 : ReaderState)
    (buf : List Nat) (n idx : Nat)
    (hp : p ≠ [])
    (hread : internalRead N st = Res.ok (buf, n, st1))
    (hn : 0 < n)
    (hfind : firstMatchPos p (buf.take n) = some idx) :
    readUntilAux N p (fuel + 1) out st =
      Outcome.ok (out ++ buf.take (idx + p.length),
        if idx + p.length < n then
          (⟨st1.source, st1.internal ++ buf.drop (idx + p.length)⟩ : ReaderState)
        else st1) ∧
    (buf.take (idx + p.length)).drop idx = p := by
  constructor
  · simp only [readUntilAux, hread, hn.ne', if_false, hfind]
    split <;> rfl
  · obtain ⟨hle, hpat⟩ := firstMatchPos_sound hfind
    have hlen : idx + p.length ≤ min n buf.length := by
      simpa [List.length_take] using hle
    have h1 : buf.take (idx + p.length) = (buf.take n).take (idx + p.length) := by
      rw [List.take_take, Nat.min_eq_left (by omega)]
    rw [h1, List.drop_take]
    have h2 : idx + p.length - idx = p.length := by omega
    rw [h2]
    exact hpat

/-- C3 witness: scanning "ABCDEF012345\r\nXX" for "\r\n" with chunk size 16
returns exactly "ABCDEF012345\r\n" and leaves "XX" on the pushback queue. -/
theorem c3_read_until_match_example :
    readUntil 16 [13, 10] 4 (sliceReader c3Input) =
      Outcome.ok (c3Line, (⟨[], [88, 88]⟩ : ReaderState)) := by
  have h := (c3_read_until_match_returns_and_pushes_back 16 [13, 10] 3 []
    (sliceReader c3Input) ⟨[], []⟩ c3Input 16 12
    (by decide) (by decide) (by decide) (by decide)).1
  exact h.trans (by decide)

/-- C4 amended: for every start line whose method token is a valid method
and whose version token decodes to a valid Version outside the supported
set, parsing fails with UnsupportedVersion carrying that version (never
Format); and the supported-version predicate holds exactly for V1 and
V1_1. -/
theorem c4_unsupported_version_distinct (line mTok target vTok : List Nat)
    (rest : List (List Nat)) (m : Method) (v : Version)
    (hsplit : splitOnSeq [32] line = mTok :: target :: vTok :: rest)
    (hm : methodFromBytes mTok = some m)
    (hv : versionFromBytes vTok = some v)
    (hns : v.isSupported = false) :
    parseStartLine line = Res.err (RequestParsingError.UnsupportedVersion v) ∧
    (∀ w : Version, w.isSupported = true ↔ w = Version.V1 ∨ w = Version.V1_1) := by
  constructor
  · simp [parseStartLine, hsplit, hm, hv, hns]
  · intro w
    cases w <;> simp [Version.isSupported]

/-- C4 witness: the start line "GET / HTTP/2" fails with
UnsupportedVersion(V2). -/
theorem c4_unsupported_version_example :
    parseStartLine getH2Line =
      Res.err (RequestParsingError.UnsupportedVersion Version.V2) :=
  (c4_unsupported_version_distinct getH2Line [71, 69, 84] [47]
    [72, 84, 84, 80, 47, 50] [] Method.Get Version.V2
    (by decide) (by decide) (by decide) (by decide)).1

/-- C5 amended: every start line splitting into more than three tokens is
rejected — with Format, except that when the method token is valid and the
version token decodes to a valid unsupported version, the
UnsupportedVersion error takes precedence over the leftover-token check. -/
theorem c5_extra_tokens_rejected (line : List Nat)
    (h : 3 < (splitOnSeq [32] line).length) :
    parseStartLine line = Res.err RequestParsingError.Format ∨
    ∃ v : Version, v.isSupported = false ∧
      parseStartLine line = Res.err (RequestParsingError.UnsupportedVersion v) := by
  rcases hl : splitOnSeq [32] line with _ | ⟨a, rest1⟩
  · rw [hl] at h
    simp at h
  rcases rest1 with _ | ⟨b, rest2⟩
  · rw [hl] at h
    simp at h
  rcases rest2 with _ | ⟨c, rest3⟩
  · rw [hl] at h
    simp at h
  rcases rest3 with _ | ⟨d, rest4⟩
  · rw [hl] at h
    simp at h
  cases hm : methodFromBytes a with
  | none => exact Or.inl (by simp [parseStartLine, hl, hm])
  | some m =>
    cases hv : versionFromBytes c with
    | none => exact Or.inl (by simp [parseStartLine, hl, hm, hv])
    | some v =>
      cases hsup : v.isSupported with
      | false =>
        refine Or.inr ⟨v, hsup, ?_⟩
        simp [parseStartLine, hl, hm, hv, hsup]
      | true => exact Or.inl (by simp [parseStartLine, hl, hm, hv, hsup])

/-- C5 witness: the start line "GET / HTTP/1.1 x" (four tokens, supported
version) fails with Format. -/
theorem c5_extra_tokens_example :
    parseStartLine getH11ExtraLine = Res.err RequestParsingError.Format := by
  have h := c5_extra_tokens_rejected getH11ExtraLine (by decide)
  rcases h with h | ⟨v, -, hv⟩
  · exact h
  · have hf : parseStartLine getH11ExtraLine = Res.err RequestParsingError.Format := by
      decide
    rw [hf] at hv
    simp at hv

/-- C6: whenever the read of a scan iteration delivers zero bytes — the
source is exhausted before the pattern has been found — read_until fails
with the UnexpectedEof error: never a silent empty or partial ok result,
and the error is a distinct constructor from every ordinary I/O error. -/
theorem c6_exhaustion_gives_eof (N : Nat) (p : List Nat) (fuel : Nat)
    (out : List Nat) (st st1 : ReaderState) (buf : List Nat)
    (h : internalRead N st = Res.ok (buf, 0, st1)) :
    readUntilAux N p (fuel + 1) out st = Outcome.err IOErr.unexpectedEof ∧
    (∀ bytes : List Nat, ∀ st2 : ReaderState,
      readUntilAux N p (fuel + 1) out st ≠ Outcome.ok (bytes, st2)) ∧
    (∀ c : Nat, (IOErr.unexpectedEof : IOErr) ≠ IOErr.other c) := by
  have h1 : readUntilAux N p (fuel + 1) out st = Outcome.err IOErr.unexpectedEof := by
    simp [readUntilAux, h]
  refine ⟨h1, ?_, ?_⟩
  · intro bytes st2
    rw [h1]
    simp
  · intro c
    simp

/-- C6 witness: scanning an already exhausted source fails with
UnexpectedEof. -/
theorem c6_exhaustion_example :
    readUntilAux 16 [13, 10] 4 [] emptySource = Outcome.err IOErr.unexpectedEof :=
  (c6_exhaustion_gives_eof 16 [13, 10] 3 [] emptySource emptySource
    (List.replicate 16 0) (by decide)).1

/-- C7: decode and encode round-trip in both directions for all 8 method
tokens and all 5 version strings: encoding any variant and decoding it
yields the variant back, and any string that decodes to a variant is that
variant's canonical encoding. -/
theorem c7_lexicon_round_trip :
    (∀ m : Method, methodFromBytes (methodToBytes m) = some m) ∧
    (∀ v : Version, versionFromBytes (versionToBytes v) = some v) ∧
    (∀ s : List Nat, ∀ m : Method, methodFromBytes s = some m → methodToBytes m = s) ∧
    (∀ s : List Nat, ∀ v : Version, versionFromBytes s = some v → versionToBytes v = s) := by
  refine ⟨?_, ?_, ?_, ?_⟩
  · intro m
    cases m <;> decide
  · intro v
    cases v <;> decide
  · intro s m h
    unfold methodFromBytes at h
    split_ifs at h <;> simp at h <;> subst_vars <;> rfl
  · intro s v h
    unfold versionFromBytes at h
    split_ifs at h <;> simp at h <;> subst_vars <;> rfl

/-- C7 witness: the string "GET" decodes to Get, whose canonical encoding
is "GET" again. -/
theorem c7_lexicon_round_trip_example :
    methodToBytes Method.Get = [71, 69, 84] :=
  c7_lexicon_round_trip.2.2.1 [71, 69, 84] Method.Get (by decide)

/-- C10: whenever the read of a scan iteration delivers n bytes with
0 < n < N (a short read) and the pattern is not among them, the loop
appends the entire N-byte buffer — the n delivered bytes plus N − n
trailing zero bytes never read from the source — to the accumulated
output and continues. -/
theorem c10_padding_appended (N : Nat) (p : List Nat) (fuel : Nat)
    (out : List Nat) (st st1 : ReaderState) (buf : List Nat) (n : Nat)
    (hread : internalRead N st = Res.ok (buf, n, st1))
    (h0 : 0 < n) (hlt : n < N)
    (hmiss : firstMatchPos p (buf.take n) = none) :
    buf.length = N ∧ buf.drop n = List.replicate (N - n) 0 ∧
    readUntilAux N p (fuel + 1) out st = readUntilAux N p fuel (out ++ buf) st1 := by
  obtain ⟨hL, -, hD⟩ := internalRead_shape hread
  refine ⟨hL, hD, ?_⟩
  simp only [readUntilAux, hread, h0.ne', if_false, hmiss]

/-- C10 witness: a source delivering a header block as "Host: x\r\n" (nine
bytes, a short read against chunk size 64) then "\r\n\r\n" makes the scan
accumulate 55 fabricated zero bytes, and read_headers returns a second
header line consisting of 55 NUL bytes. -/
theorem c10_padding_example :
    internalRead 64 shortReadState =
      Res.ok (hostChunk, 9, (⟨[RawResp.bytes [13, 10, 13, 10]], []⟩ : ReaderState)) ∧
    hostChunk.drop 9 = List.replicate 55 0 ∧
    readUntilAux 64 [13, 10, 13, 10] 4 [] shortReadState =
      readUntilAux 64 [13, 10, 13, 10] 3 hostChunk
        (⟨[RawResp.bytes [13, 10, 13, 10]], []⟩ : ReaderState) ∧
    readHeaders 4 shortReadState =
      Outcome.ok ([hostHdr, List.replicate 55 0], (⟨[], []⟩ : ReaderState)) := by
  have h := c10_padding_appended 64 [13, 10, 13, 10] 3 [] shortReadState
    ⟨[RawResp.bytes [13, 10, 13, 10]], []⟩ hostChunk 9
    (by decide) (by decide) (by decide) (by decide)
  exact ⟨by decide, h.2.1, h.2.2, by decide⟩

end SimpleHttp
